import Mathlib

/-!
Verification of the voice synthesis and playback pipeline of the
orenchi-ai-bot repository: the `VoiceService` synthesis gateway, the
`VoicePlaybackQueue` per-destination scheduler, the `DiscordBot` voice
delivery pipeline, and the persisted runtime settings loader.

Buffers are modelled as lists of bytes (`List Nat`, little-endian where
multi-byte), strings as Lean `String`s, and the asynchronous parts as
explicit state and trace semantics described at their definitions.
-/

set_option autoImplicit false

namespace OrenchiBot

abbrev Bytes := List Nat

/-! ## VoiceService: byte buffers and the WAV wrapper

Model of the Node `Buffer` writes used by `VoiceService.wrapLinear16AsWav`
(src/unnamed/part_000, lines 267-289).  A `Buffer` is a byte array;
`Buffer.alloc 44` is 44 zero bytes; `writeUInt16LE` / `writeUInt32LE`
store the little-endian bytes of the value at the given offset;
`write` of an ASCII string stores its character bytes. -/

namespace VoiceService

def writeByteSeq : Bytes → Bytes → Nat → Bytes
  | buf, [], _ => buf
  | buf, b :: bs, off => writeByteSeq (buf.set off b) bs (off + 1)

def writeUInt16LE (buf : Bytes) (value off : Nat) : Bytes :=
  (buf.set off (value % 256)).set (off + 1) (value / 256 % 256)

def writeUInt32LE (buf : Bytes) (value off : Nat) : Bytes :=
  ((((buf.set off (value % 256)).set (off + 1) (value / 256 % 256)).set
    (off + 2) (value / 65536 % 256)).set (off + 3) (value / 16777216 % 256))

def readUInt16LE (buf : Bytes) (off : Nat) : Nat :=
  buf.getD off 0 + 256 * buf.getD (off + 1) 0

def readUInt32LE (buf : Bytes) (off : Nat) : Nat :=
  buf.getD off 0 + 256 * buf.getD (off + 1) 0 +
    65536 * buf.getD (off + 2) 0 + 16777216 * buf.getD (off + 3) 0

/-- The 44-byte header computed by `VoiceService.wrapLinear16AsWav`
(src/unnamed/part_000 lines 268-287), with the writes in source order.
ASCII tags are written as their byte values: "RIFF" = 82 73 70 70,
"WAVE" = 87 65 86 69, "fmt " = 102 109 116 32, "data" = 100 97 116 97. -/
def wavHeader (pcmLength sampleRate : Nat) : Bytes :=
  let channels := 1
  let bitsPerSample := 16
  let byteRate := sampleRate * channels * (bitsPerSample / 8)
  let blockAlign := channels * (bitsPerSample / 8)
  let header := List.replicate 44 0
  let header := writeByteSeq header [82, 73, 70, 70] 0
  let header := writeUInt32LE header (36 + pcmLength) 4
  let header := writeByteSeq header [87, 65, 86, 69] 8
  let header := writeByteSeq header [102, 109, 116, 32] 12
  let header := writeUInt32LE header 16 16
  let header := writeUInt16LE header 1 20
  let header := writeUInt16LE header channels 22
  let header := writeUInt32LE header sampleRate 24
  let header := writeUInt32LE header byteRate 28
  let header := writeUInt16LE header blockAlign 32
  let header := writeUInt16LE header bitsPerSample 34
  let header := writeByteSeq header [100, 97, 116, 97] 36
  let header := writeUInt32LE header pcmLength 40
  header

/-- Model of `VoiceService.wrapLinear16AsWav` (src/unnamed/part_000 lines
267-289): the header above followed by the raw PCM payload
(`Buffer.concat([header, pcmBuffer])`). -/
def wrapLinear16AsWav (pcmBuffer : Bytes) (sampleRate : Nat) : Bytes :=
  wavHeader pcmBuffer.length sampleRate ++ pcmBuffer

/-- Splitting a character list at every occurrence of `sep`, keeping empty
segments; `splitString` below agrees with the JS `String.prototype.split`
for a one-character separator (for the ASCII separator "-", code units,
code points and characters coincide). -/
def splitOnChar (sep : Char) : List Char → List (List Char)
  | [] => [[]]
  | c :: cs =>
    match splitOnChar sep cs with
    | [] => [[]]
    | g :: gs => if c = sep then [] :: g :: gs else (c :: g) :: gs

/-- JS `s.split(sep)` for a one-character separator string. -/
def splitString (s : String) (sep : Char) : List String :=
  (splitOnChar sep s.toList).map String.mk

/-- Model of `VoiceService.resolveGoogleLanguageCode` (src/unnamed/part_000
lines 251-257).  `googleTtsLanguageEnv` is the `GOOGLE_TTS_LANGUAGE`
environment variable (`none` when unset); the JS fallback `env || "en-US"`
treats an empty configured string like an absent one. -/
def resolveGoogleLanguageCode (voiceName : String) (googleTtsLanguageEnv : Option String) : String :=
  let segments := splitString voiceName '-'
  if 2 ≤ segments.length then
    segments.getD 0 "" ++ "-" ++ segments.getD 1 ""
  else
    match googleTtsLanguageEnv with
    | some s => if s = "" then "en-US" else s
    | none => "en-US"

/-! ### VoiceService: providers and synthesis routeing

Model of the stateful part of `VoiceService` (src/unnamed/part_000 lines
8-249).  Network calls are modelled by response oracles passed in as
arguments: the function consumes the response the remote service would
have produced for the request the source code sends. -/

inductive TTSProvider where
  | openai | elevenlabs | playht | coqui | azure | google
deriving DecidableEq

inductive AudioFormat where
  | wav | mp3 | opus
deriving DecidableEq

inductive GoogleEncoding where
  | LINEAR16 | MP3 | OGG_OPUS
deriving DecidableEq

/-- JS truthiness of an optional string field: `undefined` and the empty
string are falsy, every other string is truthy. -/
def truthyString : Option String → Bool
  | none => false
  | some s => s != ""

/-- Fields of the `VoiceService` class after its constructor ran
(src/unnamed/part_000 lines 22-49).  `openaiClientConfigured` is whether
`this.openaiClient` is non-null. -/
structure State where
  provider : TTSProvider
  voiceName : String
  audioFormat : AudioFormat
  enabled : Bool
  openaiClientConfigured : Bool
  elevenLabsApiKey : Option String
  googleApiKey : Option String
  googleSampleRate : Nat

/-- Model of `VoiceService.isEnabled` (src/unnamed/part_000 lines 94-109). -/
def isEnabled (s : State) : Bool :=
  s.enabled &&
    match s.provider with
    | .openai => s.openaiClientConfigured
    | .elevenlabs => truthyString s.elevenLabsApiKey
    | .google => truthyString s.googleApiKey
    | _ => false

/-- Model of `VoiceService.mapFormatToGoogleEncoding` (src/unnamed/part_000
lines 239-249); the `default` switch case coincides with `wav`. -/
def mapFormatToGoogleEncoding : AudioFormat → GoogleEncoding
  | .mp3 => .MP3
  | .opus => .OGG_OPUS
  | .wav => .LINEAR16

/-- Oracle for a `fetch` call: `ok`/`status` of the response, the bytes of
`response.arrayBuffer()` on success, and `response.text()` on failure. -/
structure HttpResponse where
  ok : Bool
  status : Nat
  bodyBytes : Bytes
  bodyText : String

/-- Oracle for the Google Cloud TTS endpoint: `ok`/`status`, the failure
text, and the `audioContent` field of the parsed JSON body (`none` when
the field is absent, otherwise the base64-decoded bytes, since
`Buffer.from(data.audioContent, "base64")` is the only use). -/
structure GoogleResponse where
  ok : Bool
  status : Nat
  errorText : String
  audioContent : Option Bytes

/-- Environment variables read inside `generateGoogleCloudTTS`. -/
structure GoogleEnv where
  ttsVoiceEnv : Option String
  ttsLanguageEnv : Option String

/-- Model of `VoiceService.generateOpenAITTS` (src/unnamed/part_000 lines
131-149).  The OpenAI SDK call either rejects (modelled as `.error`) or
yields the audio bytes; the requested format is returned as reported. -/
def generateOpenAITTS (s : State) (formatOverride : Option AudioFormat)
    (response : Except String Bytes) : Except String (Bytes × AudioFormat) :=
  if !s.openaiClientConfigured then
    Except.error "OpenAI client is not configured."
  else
    let format := formatOverride.getD s.audioFormat
    match response with
    | .error e => Except.error e
    | .ok bytes => Except.ok (bytes, format)

/-- Model of `VoiceService.generateElevenLabsTTS` (src/unnamed/part_000
lines 151-183).  The voice id and request body only shape the HTTP request,
which the response oracle absorbs; note that no format argument exists and
the result format is the literal `"mp3"`. -/
def generateElevenLabsTTS (s : State) (response : HttpResponse) :
    Except String (Bytes × AudioFormat) :=
  if !truthyString s.elevenLabsApiKey then
    Except.error "ELEVENLABS_API_KEY environment variable is required for ElevenLabs TTS."
  else if !response.ok then
    Except.error ("ElevenLabs TTS failed (" ++ toString response.status ++ "): " ++ response.bodyText)
  else
    Except.ok (response.bodyBytes, AudioFormat.mp3)

/-- Model of `VoiceService.generateGoogleCloudTTS` (src/unnamed/part_000
lines 185-237).  `voiceName` and `languageCode` are computed exactly as in
the source (they enter the request body, absorbed by the oracle);
a `LINEAR16` response is wrapped by `wrapLinear16AsWav`. -/
def generateGoogleCloudTTS (s : State) (formatOverride : Option AudioFormat)
    (env : GoogleEnv) (response : GoogleResponse) : Except String (Bytes × AudioFormat) :=
  if !truthyString s.googleApiKey then
    Except.error "GOOGLE_TTS_API_KEY environment variable is required for Google Cloud TTS."
  else
    let desiredFormat := formatOverride.getD s.audioFormat
    let encoding := mapFormatToGoogleEncoding desiredFormat
    let voiceName :=
      if s.voiceName != "" then s.voiceName
      else match env.ttsVoiceEnv with
        | some v => if v != "" then v else "en-US-Neural2-F"
        | none => "en-US-Neural2-F"
    let _languageCode := resolveGoogleLanguageCode voiceName env.ttsLanguageEnv
    let sampleRate := s.googleSampleRate
    if !response.ok then
      Except.error ("Google Cloud TTS failed (" ++ toString response.status ++ "): " ++ response.errorText)
    else
      match response.audioContent with
      | none => Except.error "Google Cloud TTS response did not include audioContent."
      | some audioBuffer =>
        match encoding with
        | .LINEAR16 => Except.ok (wrapLinear16AsWav audioBuffer sampleRate, AudioFormat.wav)
        | .MP3 => Except.ok (audioBuffer, AudioFormat.mp3)
        | .OGG_OPUS => Except.ok (audioBuffer, AudioFormat.opus)

/-- One response oracle per backend that `synthesizeSpeech` can route to. -/
structure BackendResponses where
  openai : Except String Bytes
  elevenlabs : HttpResponse
  google : GoogleResponse

/-- Model of `VoiceService.synthesizeSpeech` (src/unnamed/part_000 lines
51-70).  The `text` and `personality` arguments only enter the request
bodies, absorbed by the oracles.  Note the `elevenlabs` branch does not
forward `formatOverride`. -/
def synthesizeSpeech (s : State) (formatOverride : Option AudioFormat)
    (env : GoogleEnv) (responses : BackendResponses) : Except String (Bytes × AudioFormat) :=
  if !isEnabled s then
    Except.error "Voice output is disabled."
  else
    match s.provider with
    | .openai => generateOpenAITTS s formatOverride responses.openai
    | .elevenlabs => generateElevenLabsTTS s responses.elevenlabs
    | .google => generateGoogleCloudTTS s formatOverride env responses.google
    | _ => Except.error "This TTS provider is not supported yet."

end VoiceService

/-! ## DiscordBot: voice delivery pipeline

Model of `DiscordBot.playAudioBuffer` and `DiscordBot.flushSilenceFrames`
(src/unnamed/part_002 lines 489-551) as a trace semantics: the functions
return the ordered list of externally visible actions they perform plus
their success or failure.  Each bounded `entersState` wait is modelled by
a boolean oracle saying whether the awaited state arrived in time. -/

namespace DiscordBot

/-- The channel binding of an existing voice connection
(`connection.joinConfig.channelId`). -/
structure Conn where
  channelId : String
deriving DecidableEq

inductive Act where
  | destroyConn
  | joinChannel (channelId : String)
  | subscribePlayer
  | playResource
  | playSilence
  | unsubscribePlayer
  | stopPlayer
  | logFlushError (message : String)
deriving DecidableEq

/-- Outcomes of the bounded waits in `playAudioBuffer` and
`flushSilenceFrames`: whether each awaited state arrived within its
timeout (`entersState(connection, Ready, 30_000)`, subscription success,
`Playing` within 5s, `Idle` within 120s, silence `Playing` within 1s,
silence `Idle` within 2s). -/
structure WaitEnv where
  connReady : Bool
  subscribeOk : Bool
  playerPlaying : Bool
  playerIdle : Bool
  flushPlaying : Bool
  flushIdle : Bool

/-- Model of `DiscordBot.flushSilenceFrames` (src/unnamed/part_002 lines
539-551): play the silence resource, wait for start (1s) and finish (2s);
any error is caught and logged (`console.warn`), and the function itself
always resolves. -/
def flushSilenceFrames (env : WaitEnv) : List Act × Except String Unit :=
  let tryBlock : List Act × Except String Unit :=
    if !env.flushPlaying then
      ([Act.playSilence], Except.error "silence resource did not start playing within 1s")
    else if !env.flushIdle then
      ([Act.playSilence], Except.error "silence resource did not finish within 2s")
    else
      ([Act.playSilence], Except.ok ())
  match tryBlock.2 with
  | Except.ok _ => (tryBlock.1, Except.ok ())
  | Except.error e => (tryBlock.1 ++ [Act.logFlushError e], Except.ok ())

/-- Model of the connection-selection part of `DiscordBot.playAudioBuffer`
(src/unnamed/part_002 lines 489-507): a connection bound to a different
channel is destroyed and `connection` set to null, after which a null
connection joins the requested channel; a connection bound to the same
channel is kept as-is. -/
def connectPhase (existing : Option Conn) (requestedChannelId : String) : List Act × Conn :=
  match existing with
  | some c =>
    if c.channelId ≠ requestedChannelId then
      ([Act.destroyConn, Act.joinChannel requestedChannelId], ⟨requestedChannelId⟩)
    else
      ([], c)
  | none => ([Act.joinChannel requestedChannelId], ⟨requestedChannelId⟩)

/-- Model of `DiscordBot.playAudioBuffer` (src/unnamed/part_002 lines
489-537): connection selection, the Ready wait, player subscription (on
failure the connection is destroyed and the task fails), playback, the
Playing/Idle waits and the silence flush inside `try`, with
`unsubscribe`/`stop` in `finally` and errors propagating afterwards. -/
def playAudioBuffer (existing : Option Conn) (requestedChannelId : String)
    (env : WaitEnv) : List Act × Except String Unit :=
  let cp := connectPhase existing requestedChannelId
  if !env.connReady then
    (cp.1, Except.error "connection did not enter the Ready state within 30s")
  else
    let acts1 := cp.1 ++ [Act.subscribePlayer]
    if !env.subscribeOk then
      (acts1 ++ [Act.destroyConn],
       Except.error "Unable to subscribe audio player to the voice connection.")
    else
      let acts2 := acts1 ++ [Act.playResource]
      let tryPhase : List Act × Except String Unit :=
        if !env.playerPlaying then
          ([], Except.error "audio player did not start playing within 5s")
        else if !env.playerIdle then
          ([], Except.error "audio player did not become idle within 120s")
        else
          flushSilenceFrames env
      (acts2 ++ tryPhase.1 ++ [Act.unsubscribePlayer, Act.stopPlayer], tryPhase.2)

/-- Model of `DiscordBot.sanitizeForTTS` (src/unnamed/part_002 lines
481-487): `text.replace(/\p{Extended_Pictographic}/gu, "")` deletes every
code point matching the class and keeps the rest in order.  The engine's
Unicode property table is the parameter `isExtendedPictographic` (the
`catch` branch is unreachable in a runtime that parsed the regex literal,
so the replace path is the behaviour). -/
def sanitizeForTTS (isExtendedPictographic : Char → Bool) (text : String) : String :=
  String.mk (text.toList.filter (fun c => !isExtendedPictographic c))

end DiscordBot

/-! ## Runtime settings loader

Model of `src/src/utils/runtimeSettings.ts`.  `JSON.parse` is an external
library, modelled as an oracle `parseJson` returning `none` when the raw
text is not valid JSON (the parse throws) and the parsed value otherwise.
Because a parsed field can hold any JSON value at runtime, the record
fields are modelled as JSON values. -/

namespace RuntimeSettings

inductive JValue where
  | jnull
  | jbool (b : Bool)
  | jnum (n : Int)
  | jstr (s : String)
  | jarr (elems : List JValue)
  | jobj (fields : List (String × JValue))

/-- The `RuntimeSettingsData` shape (src/src/utils/runtimeSettings.ts lines
5-9), with runtime (JSON) values in the fields. -/
structure RuntimeSettingsData where
  chatModelPreset : JValue
  ttsProvider : JValue
  ttsVoice : JValue

/-- `DEFAULT_SETTINGS` (src/src/utils/runtimeSettings.ts lines 11-15). -/
def DEFAULT_SETTINGS : RuntimeSettingsData :=
  ⟨JValue.jstr "balanced", JValue.jstr "openai", JValue.jstr "alloy"⟩

/-- State of the settings file at load time: absent (`existsSync` false),
present but unreadable (`readFileSync` throws), or readable with raw text. -/
inductive FileState where
  | missing
  | unreadable
  | content (raw : String)

/-- Property lookup on a parsed JSON object; `JSON.parse` keeps the last
duplicate key, so the last binding wins. -/
def getField (fields : List (String × JValue)) (key : String) : Option JValue :=
  (fields.reverse.find? (fun f => f.1 == key)).map (·.2)

/-- The object spread `{...DEFAULT_SETTINGS, ...parsed}`: own enumerable
properties of `parsed` override the defaults.  Spreading a non-object
contributes no property named like a settings field (strings spread their
numeric indices; numbers, booleans and null spread nothing; arrays spread
numeric indices). -/
def spreadIntoDefaults (parsed : JValue) : RuntimeSettingsData :=
  match parsed with
  | .jobj fields =>
    { chatModelPreset := (getField fields "chatModelPreset").getD DEFAULT_SETTINGS.chatModelPreset
      ttsProvider := (getField fields "ttsProvider").getD DEFAULT_SETTINGS.ttsProvider
      ttsVoice := (getField fields "ttsVoice").getD DEFAULT_SETTINGS.ttsVoice }
  | _ => DEFAULT_SETTINGS

/-- Model of `loadRuntimeSettings` (src/src/utils/runtimeSettings.ts lines
19-34): a missing file, a read error or a parse error each yield a copy of
the defaults; a parsed value is spread over the defaults. -/
def loadRuntimeSettings (file : FileState) (parseJson : String → Option JValue) :
    RuntimeSettingsData :=
  match file with
  | .missing => DEFAULT_SETTINGS
  | .unreadable => DEFAULT_SETTINGS
  | .content raw =>
    match parseJson raw with
    | none => DEFAULT_SETTINGS
    | some v => spreadIntoDefaults v

end RuntimeSettings

/-! ## VoicePlaybackQueue: per-key promise chaining

Model of `VoicePlaybackQueue.enqueue` (src/unnamed/part_003).  A settled
promise of the chain is modelled denotationally as `PDen`: the ordered
trace of events emitted up to its settlement, together with its settled
value (`Except` for fulfilled/rejected).  The promise combinators follow
the ECMAScript semantics: `.catch(h)` passes a fulfilment through and
turns a rejection into the handler's fulfilment; `.then(f)` runs `f` on a
fulfilment and passes a rejection through; `.finally(f)` runs `f` and
passes the settlement through.  A task invocation emits its start event,
then its finish event when it settles with its own outcome.  Each
enqueued task is identified by its global submission index. -/

namespace VoicePlaybackQueue

abbrev ErrVal := Nat

/-- Outcome of a task: `none` resolves, `some e` rejects with error `e`. -/
abbrev Outcome := Option ErrVal

inductive Ev where
  | start (taskId : Nat)
  | finish (taskId : Nat) (succeeded : Bool)
  | logPreviousError (taskId : Nat) (e : ErrVal)
  | logTaskError (taskId : Nat) (e : ErrVal)
  | cleanupCheck (taskId : Nat)
deriving DecidableEq

/-- A settled promise: its cumulative event trace and settled value. -/
abbrev PDen := List Ev × Except ErrVal Unit

/-- `Promise.resolve()`: already fulfilled, no events. -/
def promiseResolve : PDen := ([], Except.ok ())

/-- `p.catch(handler)` where the handler only emits log events and returns
undefined: a fulfilment passes through, a rejection runs the handler and
fulfils. -/
def pcatch (p : PDen) (handlerEvents : ErrVal → List Ev) : PDen :=
  match p.2 with
  | .ok _ => p
  | .error e => (p.1 ++ handlerEvents e, Except.ok ())

/-- `p.then(f)`: on fulfilment run `f`, on rejection pass the rejection
through without running `f`. -/
def pthen (p : PDen) (f : Unit → PDen) : PDen :=
  match p.2 with
  | .ok _ => let r := f (); (p.1 ++ r.1, r.2)
  | .error e => (p.1, Except.error e)

/-- `p.finally(g)` where `g` emits the given events: runs after `p`
settles and passes the settlement through. -/
def pfinallyEvents (p : PDen) (events : List Ev) : PDen :=
  (p.1 ++ events, p.2)

/-- Invoking the enqueued task with submission index `taskId`: it starts,
then finishes with its own outcome. -/
def runTask (taskId : Nat) (o : Outcome) : PDen :=
  ([Ev.start taskId, Ev.finish taskId o.isNone],
   match o with
   | none => Except.ok ()
   | some e => Except.error e)

/-- The key-to-chain map `queues`, as a total map; a key never enqueued
maps to the equivalent of `Promise.resolve()` (the `??` fallback in the
source makes the two observationally identical for chaining). -/
abbrev QState := String → PDen

/-- Model of `VoicePlaybackQueue.enqueue` (src/unnamed/part_003 lines
6-28): `next` is `previous.catch(log).then(task).catch(log)`; the map
entry becomes `next.finally(cleanup)` (the cleanup only inspects the map,
modelled separately; here it contributes its event); `next` is returned
to the caller. -/
def enqueue (st : QState) (guildId : String) (taskId : Nat) (o : Outcome) :
    PDen × QState :=
  let previous := st guildId
  let next :=
    pcatch
      (pthen (pcatch previous (fun e => [Ev.logPreviousError taskId e]))
        (fun _ => runTask taskId o))
      (fun e => [Ev.logTaskError taskId e])
  let stored := pfinallyEvents next [Ev.cleanupCheck taskId]
  (next, Function.update st guildId stored)

def initState : QState := fun _ => promiseResolve

/-- Run a sequence of `enqueue` calls (pairs of destination key and task
outcome) numbering tasks by submission order from `taskId`; returns the
final map state and, per submission, the key and the handle (`next`)
returned to that caller. -/
def runEnqueues : QState → Nat → List (String × Outcome) → QState × List (String × PDen)
  | st, _, [] => (st, [])
  | st, taskId, (k, o) :: rest =>
    let r := enqueue st k taskId o
    let t := runEnqueues r.2 (taskId + 1) rest
    (t.1, (k, r.1) :: t.2)

/-- Written from the spec sentence for comparison: the canonical trace for
destination key `key` in which each task enqueued for `key` contributes
exactly one start event immediately followed by its finish event, in
submission order, whatever the outcomes are. -/
def specCanonicalTrace (key : String) : Nat → List (String × Outcome) → List Ev
  | _, [] => []
  | taskId, (k, o) :: rest =>
    (if k = key then [Ev.start taskId, Ev.finish taskId o.isNone] else [])
      ++ specCanonicalTrace key (taskId + 1) rest

def isTaskEvent : Ev → Bool
  | .start _ => true
  | .finish _ _ => true
  | _ => false

/-- The task start/finish events of a trace, discarding log and cleanup
events. -/
def taskEvents (tr : List Ev) : List Ev := tr.filter isTaskEvent

end VoicePlaybackQueue

/-! ## VoicePlaybackQueue: map cleanup with promise identity

Separate model for the compare-and-delete cleanup in
`VoicePlaybackQueue.enqueue` (src/unnamed/part_003 lines 18-25), where
promise identity (`===`) matters.  Every promise-creating expression
allocates a fresh id: in one `enqueue` call, `Promise.resolve()` (only
when the key is absent), then `previous.catch(...)`, `.then(...)`,
`.catch(...)` (the returned `next`), and `next.finally(...)` (the value
stored in the map).  The cleanup callback of an enqueue runs when its
chain settles — in any order relative to other steps — and deletes the
key only if the map still holds the id it compares against, which in the
source is `next`, not the stored `next.finally(...)`. -/

namespace VoicePlaybackQueueMap

/-- `nextId` is the fresh-allocation counter; `table` is the `queues` map
(key to stored promise id, `none` for an absent key); `pending` holds the
not-yet-run cleanup callbacks as (key, id compared against). -/
structure MapState where
  nextId : Nat
  table : String → Option Nat
  pending : List (String × Nat)

/-- One `enqueue(guildId, task)` call, promise allocation only:
`previous` is the map entry or a fresh `Promise.resolve()`; then
`.catch` allocates `base`, `.then` allocates `base + 1`, the final
`.catch` allocates `base + 2` (= `next`), and `next.finally(...)`
allocates `base + 3`, which is stored in the map.  The cleanup that will
run when the chain settles compares against `next` (= `base + 2`). -/
def enqueueAlloc (st : MapState) (guildId : String) : MapState :=
  let base :=
    match st.table guildId with
    | some _ => st.nextId
    | none => st.nextId + 1
  { nextId := base + 4
    table := Function.update st.table guildId (some (base + 3))
    pending := st.pending ++ [(guildId, base + 2)] }

/-- Run the `j`-th pending cleanup callback (src/unnamed/part_003 lines
20-24): `if (this.queues.get(guildId) === next) this.queues.delete(guildId)`. -/
def runCleanup (st : MapState) (j : Nat) : MapState :=
  match st.pending[j]? with
  | none => st
  | some (k, nextPid) =>
    { nextId := st.nextId
      table :=
        if st.table k = some nextPid then Function.update st.table k none
        else st.table
      pending := st.pending.eraseIdx j }

inductive MStep where
  | enq (guildId : String)
  | settle (j : Nat)
deriving DecidableEq

def step (st : MapState) : MStep → MapState
  | .enq k => enqueueAlloc st k
  | .settle j => runCleanup st j

def initMapState : MapState := ⟨0, fun _ => none, []⟩

/-- Run a sequence of enqueues and cleanup firings from the empty queue. -/
def run (steps : List MStep) : MapState :=
  steps.foldl step initMapState

/-- Invariant carried along every run: all recorded ids are below the
allocation counter, and no pending cleanup compares against an id that is
stored in the map. -/
def Inv (st : MapState) : Prop :=
  (∀ k v, st.table k = some v → v < st.nextId) ∧
  (∀ q ∈ st.pending, q.2 < st.nextId) ∧
  (∀ k v, st.table k = some v → ∀ q ∈ st.pending, v ≠ q.2)

end VoicePlaybackQueueMap

end OrenchiBot

namespace OrenchiBot

namespace VoiceService

/-! ### Byte-level lemmas for the WAV wrapper -/

theorem getD_set_ne {l : Bytes} {i j v : Nat} (h : i ≠ j) :
    (l.set i v).getD j 0 = l.getD j 0 := by
  simp [List.getD_eq_getElem?_getD, List.getElem?_set_ne h]

theorem getD_set_self {l : Bytes} {j v : Nat} (h : j < l.length) :
    (l.set j v).getD j 0 = v := by
  simp [List.getD_eq_getElem?_getD, List.getElem?_set_self, h]

@[simp] theorem length_writeByteSeq :
    ∀ (bs buf : Bytes) (off : Nat), (writeByteSeq buf bs off).length = buf.length
  | [], _, _ => rfl
  | _ :: bs, buf, off => by
    simp [writeByteSeq, length_writeByteSeq bs]

@[simp] theorem length_writeUInt16LE (buf : Bytes) (v off : Nat) :
    (writeUInt16LE buf v off).length = buf.length := by
  simp [writeUInt16LE]

@[simp] theorem length_writeUInt32LE (buf : Bytes) (v off : Nat) :
    (writeUInt32LE buf v off).length = buf.length := by
  simp [writeUInt32LE]

@[simp] theorem length_wavHeader (len rate : Nat) :
    (wavHeader len rate).length = 44 := by
  simp [wavHeader]

theorem length_wrapLinear16AsWav (pcm : Bytes) (rate : Nat) :
    (wrapLinear16AsWav pcm rate).length = pcm.length + 44 := by
  simp [wrapLinear16AsWav]
  omega

theorem drop_wrapLinear16AsWav (pcm : Bytes) (rate : Nat) :
    (wrapLinear16AsWav pcm rate).drop 44 = pcm := by
  have h := List.drop_left (wavHeader pcm.length rate) pcm
  rwa [length_wavHeader] at h

theorem getD_wrapLinear16AsWav (pcm : Bytes) (rate j : Nat) (h : j < 44) :
    (wrapLinear16AsWav pcm rate).getD j 0 = (wavHeader pcm.length rate).getD j 0 := by
  have hlt : j < (wavHeader pcm.length rate).length := by
    rw [length_wavHeader]; exact h
  simp [wrapLinear16AsWav, List.getD_eq_getElem?_getD, List.getElem?_append_left hlt]

theorem readUInt16LE_wavHeader_20 (len rate : Nat) :
    readUInt16LE (wavHeader len rate) 20 = 1 := by
  simp [readUInt16LE, wavHeader, writeByteSeq, writeUInt16LE, writeUInt32LE,
    getD_set_ne, getD_set_self]

theorem readUInt16LE_wavHeader_22 (len rate : Nat) :
    readUInt16LE (wavHeader len rate) 22 = 1 := by
  simp [readUInt16LE, wavHeader, writeByteSeq, writeUInt16LE, writeUInt32LE,
    getD_set_ne, getD_set_self]

theorem readUInt16LE_wavHeader_32 (len rate : Nat) :
    readUInt16LE (wavHeader len rate) 32 = 2 := by
  simp [readUInt16LE, wavHeader, writeByteSeq, writeUInt16LE, writeUInt32LE,
    getD_set_ne, getD_set_self]

theorem readUInt16LE_wavHeader_34 (len rate : Nat) :
    readUInt16LE (wavHeader len rate) 34 = 16 := by
  simp [readUInt16LE, wavHeader, writeByteSeq, writeUInt16LE, writeUInt32LE,
    getD_set_ne, getD_set_self]

theorem readUInt32LE_wavHeader_4 (len rate : Nat) (h : 36 + len < 4294967296) :
    readUInt32LE (wavHeader len rate) 4 = 36 + len := by
  simp [readUInt32LE, wavHeader, writeByteSeq, writeUInt16LE, writeUInt32LE,
    getD_set_ne, getD_set_self]
  omega

theorem readUInt32LE_wavHeader_24 (len rate : Nat) (h : rate < 4294967296) :
    readUInt32LE (wavHeader len rate) 24 = rate := by
  simp [readUInt32LE, wavHeader, writeByteSeq, writeUInt16LE, writeUInt32LE,
    getD_set_ne, getD_set_self]
  omega

theorem readUInt32LE_wavHeader_28 (len rate : Nat) (h : rate * 2 < 4294967296) :
    readUInt32LE (wavHeader len rate) 28 = rate * 2 := by
  simp [readUInt32LE, wavHeader, writeByteSeq, writeUInt16LE, writeUInt32LE,
    getD_set_ne, getD_set_self]
  omega

theorem readUInt32LE_wavHeader_40 (len rate : Nat) (h : len < 4294967296) :
    readUInt32LE (wavHeader len rate) 40 = len := by
  simp [readUInt32LE, wavHeader, writeByteSeq, writeUInt16LE, writeUInt32LE,
    getD_set_ne, getD_set_self]
  omega

end VoiceService

end OrenchiBot

namespace OrenchiBot

namespace VoiceService

theorem readUInt16LE_wrap (pcm : Bytes) (rate off : Nat) (h : off + 1 < 44) :
    readUInt16LE (wrapLinear16AsWav pcm rate) off = readUInt16LE (wavHeader pcm.length rate) off := by
  unfold readUInt16LE
  rw [getD_wrapLinear16AsWav pcm rate off (by omega),
    getD_wrapLinear16AsWav pcm rate (off + 1) h]

theorem readUInt32LE_wrap (pcm : Bytes) (rate off : Nat) (h : off + 3 < 44) :
    readUInt32LE (wrapLinear16AsWav pcm rate) off = readUInt32LE (wavHeader pcm.length rate) off := by
  unfold readUInt32LE
  rw [getD_wrapLinear16AsWav pcm rate off (by omega),
    getD_wrapLinear16AsWav pcm rate (off + 1) (by omega),
    getD_wrapLinear16AsWav pcm rate (off + 2) (by omega),
    getD_wrapLinear16AsWav pcm rate (off + 3) h]

/-- C4: for every raw 16-bit mono little-endian PCM buffer of length L and
every sample rate S (within the 32-bit ranges the header fields can hold),
`wrapLinear16AsWav` produces a buffer of exactly L + 44 bytes whose header
decodes to format tag 1 (offset 20), channel count 1 (offset 22), sample
rate S (offset 24), byte rate S*2 (offset 28), block align 2 (offset 32),
bit depth 16 (offset 34), RIFF chunk size 36 + L (offset 4) and data chunk
size L (offset 40), followed by the PCM payload unchanged. -/
theorem claim4_wav_wrapper (pcm : Bytes) (sampleRate : Nat)
    (hRate : sampleRate * 2 < 4294967296) (hLen : 36 + pcm.length < 4294967296) :
    (wrapLinear16AsWav pcm sampleRate).length = pcm.length + 44 ∧
    readUInt16LE (wrapLinear16AsWav pcm sampleRate) 20 = 1 ∧
    readUInt16LE (wrapLinear16AsWav pcm sampleRate) 22 = 1 ∧
    readUInt32LE (wrapLinear16AsWav pcm sampleRate) 24 = sampleRate ∧
    readUInt32LE (wrapLinear16AsWav pcm sampleRate) 28 = sampleRate * 2 ∧
    readUInt16LE (wrapLinear16AsWav pcm sampleRate) 32 = 2 ∧
    readUInt16LE (wrapLinear16AsWav pcm sampleRate) 34 = 16 ∧
    readUInt32LE (wrapLinear16AsWav pcm sampleRate) 4 = 36 + pcm.length ∧
    readUInt32LE (wrapLinear16AsWav pcm sampleRate) 40 = pcm.length ∧
    (wrapLinear16AsWav pcm sampleRate).drop 44 = pcm := by
  refine ⟨length_wrapLinear16AsWav pcm sampleRate, ?_, ?_, ?_, ?_, ?_, ?_, ?_, ?_,
    drop_wrapLinear16AsWav pcm sampleRate⟩
  · rw [readUInt16LE_wrap pcm sampleRate 20 (by omega)]
    exact readUInt16LE_wavHeader_20 _ _
  · rw [readUInt16LE_wrap pcm sampleRate 22 (by omega)]
    exact readUInt16LE_wavHeader_22 _ _
  · rw [readUInt32LE_wrap pcm sampleRate 24 (by omega)]
    exact readUInt32LE_wavHeader_24 _ _ (by omega)
  · rw [readUInt32LE_wrap pcm sampleRate 28 (by omega)]
    exact readUInt32LE_wavHeader_28 _ _ (by omega)
  · rw [readUInt16LE_wrap pcm sampleRate 32 (by omega)]
    exact readUInt16LE_wavHeader_32 _ _
  · rw [readUInt16LE_wrap pcm sampleRate 34 (by omega)]
    exact readUInt16LE_wavHeader_34 _ _
  · rw [readUInt32LE_wrap pcm sampleRate 4 (by omega)]
    exact readUInt32LE_wavHeader_4 _ _ (by omega)
  · rw [readUInt32LE_wrap pcm sampleRate 40 (by omega)]
    exact readUInt32LE_wavHeader_40 _ _ (by omega)

/-- Witness for C4 at the concrete payload [1, 2, 3, 4] and rate 24000. -/
theorem claim4_wav_wrapper_witness :
    24000 * 2 < 4294967296 ∧ 36 + ([1, 2, 3, 4] : Bytes).length < 4294967296 ∧
    ((wrapLinear16AsWav [1, 2, 3, 4] 24000).length = ([1, 2, 3, 4] : Bytes).length + 44 ∧
     readUInt16LE (wrapLinear16AsWav [1, 2, 3, 4] 24000) 20 = 1 ∧
     readUInt16LE (wrapLinear16AsWav [1, 2, 3, 4] 24000) 22 = 1 ∧
     readUInt32LE (wrapLinear16AsWav [1, 2, 3, 4] 24000) 24 = 24000 ∧
     readUInt32LE (wrapLinear16AsWav [1, 2, 3, 4] 24000) 28 = 24000 * 2 ∧
     readUInt16LE (wrapLinear16AsWav [1, 2, 3, 4] 24000) 32 = 2 ∧
     readUInt16LE (wrapLinear16AsWav [1, 2, 3, 4] 24000) 34 = 16 ∧
     readUInt32LE (wrapLinear16AsWav [1, 2, 3, 4] 24000) 4 = 36 + ([1, 2, 3, 4] : Bytes).length ∧
     readUInt32LE (wrapLinear16AsWav [1, 2, 3, 4] 24000) 40 = ([1, 2, 3, 4] : Bytes).length ∧
     (wrapLinear16AsWav [1, 2, 3, 4] 24000).drop 44 = [1, 2, 3, 4]) :=
  ⟨by decide, by decide, claim4_wav_wrapper [1, 2, 3, 4] 24000 (by decide) (by decide)⟩

/-- C5: whenever the provider is the fixed-output backend (ElevenLabs) and
the remote call succeeds, synthesis reports format mp3, for every
requested output format override — never the caller's requested format. -/
theorem claim5_elevenlabs_fixed_format (s : State)
    (formatOverride : Option AudioFormat) (env : GoogleEnv) (responses : BackendResponses)
    (hp : s.provider = TTSProvider.elevenlabs)
    (hen : isEnabled s = true)
    (hok : responses.elevenlabs.ok = true) :
    synthesizeSpeech s formatOverride env responses =
      Except.ok (responses.elevenlabs.bodyBytes, AudioFormat.mp3) := by
  have h2 := hen
  simp only [isEnabled, hp, Bool.and_eq_true] at h2
  simp [synthesizeSpeech, hen, hp, generateElevenLabsTTS, h2.2, hok]

/-- Witness for C5: the caller requests wav but the reported format is the
backend's fixed mp3. -/
theorem claim5_elevenlabs_fixed_format_witness :
    synthesizeSpeech
      ⟨TTSProvider.elevenlabs, "v", AudioFormat.wav, true, false, some "key", none, 24000⟩
      (some AudioFormat.wav) ⟨none, none⟩
      ⟨Except.ok [], ⟨true, 200, [9, 9], ""⟩, ⟨true, 200, "", none⟩⟩ =
      Except.ok ([9, 9], AudioFormat.mp3) :=
  claim5_elevenlabs_fixed_format _ _ _ _ rfl (by decide) rfl

/-- C7: locale resolution returns the first two hyphen-delimited segments
of the voice identifier joined by a hyphen when at least two segments
exist, and otherwise the configured default locale (a configured empty
string counting as unconfigured), or "en-US" when none is configured;
in particular "en-US-Neural2-F" resolves to "en-US" and "solo" falls back. -/
theorem claim7_locale_resolution (voiceName : String) (envLang : Option String) :
    (2 ≤ (splitString voiceName '-').length →
      resolveGoogleLanguageCode voiceName envLang =
        (splitString voiceName '-').getD 0 "" ++ "-" ++ (splitString voiceName '-').getD 1 "") ∧
    ((splitString voiceName '-').length < 2 →
      resolveGoogleLanguageCode voiceName envLang =
        (match envLang with
         | some s => if s = "" then "en-US" else s
         | none => "en-US")) ∧
    resolveGoogleLanguageCode "en-US-Neural2-F" envLang = "en-US" ∧
    resolveGoogleLanguageCode "solo" envLang =
      (match envLang with
       | some s => if s = "" then "en-US" else s
       | none => "en-US") := by
  refine ⟨fun h => ?_, fun h => ?_, ?_, ?_⟩
  · simp [resolveGoogleLanguageCode, h]
  · have hnot : ¬ 2 ≤ (splitString voiceName '-').length := by omega
    simp [resolveGoogleLanguageCode, hnot]
  · have hseg : 2 ≤ (splitString "en-US-Neural2-F" '-').length := by decide
    simp only [resolveGoogleLanguageCode, hseg, if_pos]
    decide
  · have hseg : ¬ 2 ≤ (splitString "solo" '-').length := by decide
    simp [resolveGoogleLanguageCode, hseg]

/-- Witness for C7 at the two concrete voice identifiers from the spec. -/
theorem claim7_locale_resolution_witness :
    2 ≤ (splitString "en-US-Neural2-F" '-').length ∧
    resolveGoogleLanguageCode "en-US-Neural2-F" none =
      (splitString "en-US-Neural2-F" '-').getD 0 "" ++ "-" ++
        (splitString "en-US-Neural2-F" '-').getD 1 "" ∧
    (splitString "solo" '-').length < 2 ∧
    resolveGoogleLanguageCode "solo" (some "fr-FR") = "fr-FR" :=
  ⟨by decide,
   (claim7_locale_resolution "en-US-Neural2-F" none).1 (by decide),
   by decide,
   by
    have h := (claim7_locale_resolution "solo" (some "fr-FR")).2.1 (by decide)
    simpa using h⟩

end VoiceService

end OrenchiBot

namespace OrenchiBot

namespace DiscordBot

/-- C6: a playback task whose requested voice channel differs from the
channel the existing connection is bound to destroys the old connection
strictly before building the new one (the first two actions of the trace
are the destroy and then the join); with the same channel, the connection
phase performs no action and reuses the existing connection. -/
theorem claim6_channel_rebind (c : Conn) (requested : String) (env : WaitEnv) :
    (c.channelId ≠ requested →
      connectPhase (some c) requested =
        ([Act.destroyConn, Act.joinChannel requested], ⟨requested⟩) ∧
      (playAudioBuffer (some c) requested env).1.take 2 =
        [Act.destroyConn, Act.joinChannel requested]) ∧
    (c.channelId = requested → connectPhase (some c) requested = ([], c)) := by
  constructor
  · intro h
    have hcp : connectPhase (some c) requested =
        ([Act.destroyConn, Act.joinChannel requested], ⟨requested⟩) := by
      simp [connectPhase, h]
    refine ⟨hcp, ?_⟩
    simp only [playAudioBuffer, hcp]
    rcases env with ⟨cr, so, pp, pi, fp, fi⟩
    cases cr <;> cases so <;> cases pp <;> cases pi <;> cases fp <;> cases fi <;> rfl
  · intro h
    simp [connectPhase, h]

/-- Witness for C6: switching from channel "general" to "music" tears the
old connection down first; targeting "general" again reuses it. -/
theorem claim6_channel_rebind_witness :
    (Conn.mk "general").channelId ≠ "music" ∧
    connectPhase (some (Conn.mk "general")) "music" =
      ([Act.destroyConn, Act.joinChannel "music"], Conn.mk "music") ∧
    (playAudioBuffer (some (Conn.mk "general")) "music"
      ⟨true, true, true, true, true, true⟩).1.take 2 =
      [Act.destroyConn, Act.joinChannel "music"] ∧
    connectPhase (some (Conn.mk "general")) "general" = ([], Conn.mk "general") :=
  ⟨by decide,
   ((claim6_channel_rebind (Conn.mk "general") "music"
      ⟨true, true, true, true, true, true⟩).1 (by decide)).1,
   ((claim6_channel_rebind (Conn.mk "general") "music"
      ⟨true, true, true, true, true, true⟩).1 (by decide)).2,
   (claim6_channel_rebind (Conn.mk "general") "general"
      ⟨true, true, true, true, true, true⟩).2 rfl⟩

/-- C8: `flushSilenceFrames` always resolves — any error in the draining
phase is caught and logged inside it — and a playback task whose primary
content played (connection ready, subscription ok, playing and idle both
confirmed) succeeds whatever the drain outcome; when a drain wait fails,
the logged drain error appears in the trace instead of a failure. -/
theorem claim8_drain_errors_swallowed (existing : Option Conn) (requested : String)
    (env : WaitEnv) (hready : env.connReady = true) (hsub : env.subscribeOk = true)
    (hplaying : env.playerPlaying = true) (hidle : env.playerIdle = true) :
    (flushSilenceFrames env).2 = Except.ok () ∧
    (playAudioBuffer existing requested env).2 = Except.ok () ∧
    (env.flushPlaying = false ∨ env.flushIdle = false →
      ∃ msg, Act.logFlushError msg ∈ (flushSilenceFrames env).1 ∧
        Act.logFlushError msg ∈ (playAudioBuffer existing requested env).1) := by
  rcases env with ⟨cr, so, pp, pi, fp, fi⟩
  simp only at hready hsub hplaying hidle
  subst hready; subst hsub; subst hplaying; subst hidle
  refine ⟨?_, ?_, ?_⟩
  · cases fp <;> cases fi <;> simp [flushSilenceFrames]
  · cases fp <;> cases fi <;> simp [playAudioBuffer, flushSilenceFrames]
  · intro hor
    cases fp
    · exact ⟨"silence resource did not start playing within 1s",
        by simp [flushSilenceFrames],
        by simp [playAudioBuffer, flushSilenceFrames]⟩
    · cases fi
      · exact ⟨"silence resource did not finish within 2s",
          by simp [flushSilenceFrames],
          by simp [playAudioBuffer, flushSilenceFrames]⟩
      · rcases hor with h | h <;> simp at h

/-- Witness for C8: the silence start wait fails, yet the task succeeds
and the drain error is only logged. -/
theorem claim8_drain_errors_swallowed_witness :
    (⟨true, true, true, true, false, true⟩ : WaitEnv).connReady = true ∧
    (⟨true, true, true, true, false, true⟩ : WaitEnv).subscribeOk = true ∧
    (⟨true, true, true, true, false, true⟩ : WaitEnv).playerPlaying = true ∧
    (⟨true, true, true, true, false, true⟩ : WaitEnv).playerIdle = true ∧
    ((flushSilenceFrames ⟨true, true, true, true, false, true⟩).2 = Except.ok () ∧
     (playAudioBuffer none "vc" ⟨true, true, true, true, false, true⟩).2 = Except.ok () ∧
     ((⟨true, true, true, true, false, true⟩ : WaitEnv).flushPlaying = false ∨
        (⟨true, true, true, true, false, true⟩ : WaitEnv).flushIdle = false →
      ∃ msg, Act.logFlushError msg ∈
          (flushSilenceFrames ⟨true, true, true, true, false, true⟩).1 ∧
        Act.logFlushError msg ∈
          (playAudioBuffer none "vc" ⟨true, true, true, true, false, true⟩).1)) :=
  ⟨rfl, rfl, rfl, rfl,
   claim8_drain_errors_swallowed none "vc" ⟨true, true, true, true, false, true⟩
     rfl rfl rfl rfl⟩

/-- C10: the sanitizer removes exactly the characters matching the
pictographic class (the parameter stands for the Unicode
Extended_Pictographic table of the regex engine) and keeps every other
character in order; it is idempotent; and a string without pictographic
characters is returned unchanged. -/
theorem claim10_sanitize_pictographic (P : Char → Bool) (text : String) :
    (sanitizeForTTS P text).toList = text.toList.filter (fun c => !P c) ∧
    sanitizeForTTS P (sanitizeForTTS P text) = sanitizeForTTS P text ∧
    ((∀ c ∈ text.toList, P c = false) → sanitizeForTTS P text = text) := by
  refine ⟨rfl, ?_, fun h => ?_⟩
  · have hff : (text.toList.filter (fun c => !P c)).filter (fun c => !P c) =
        text.toList.filter (fun c => !P c) := by
      rw [List.filter_filter]
      simp
    show String.mk (((String.mk (text.toList.filter (fun c => !P c))).toList).filter
      (fun c => !P c)) = String.mk (text.toList.filter (fun c => !P c))
    rw [show (String.mk (text.toList.filter (fun c => !P c))).toList =
        text.toList.filter (fun c => !P c) from rfl, hff]
  · have hall : text.toList.filter (fun c => !P c) = text.toList :=
      List.filter_eq_self.mpr (fun a ha => by simp [h a ha])
    show String.mk (text.toList.filter (fun c => !P c)) = text
    rw [hall]
    cases text
    rfl

/-- Witness for C10: with the class holding exactly the first emoji code
point, a plain ASCII string is a fixed point of the sanitizer. -/
theorem claim10_sanitize_pictographic_witness :
    (∀ c ∈ "hello".toList, (fun c : Char => decide (c.toNat = 128512)) c = false) ∧
    sanitizeForTTS (fun c : Char => decide (c.toNat = 128512)) "hello" = "hello" :=
  ⟨by decide,
   (claim10_sanitize_pictographic (fun c : Char => decide (c.toNat = 128512)) "hello").2.2
     (by decide)⟩

end DiscordBot

namespace RuntimeSettings

/-- C9: loading the persisted runtime settings returns the hard-coded
defaults whenever the settings file is missing, unreadable, or fails to
parse; and any result other than the defaults can only arise from a
successfully parsed file spread over the defaults. -/
theorem claim9_settings_load_defaults (file : FileState)
    (parseJson : String → Option JValue) :
    (file = FileState.missing → loadRuntimeSettings file parseJson = DEFAULT_SETTINGS) ∧
    (file = FileState.unreadable → loadRuntimeSettings file parseJson = DEFAULT_SETTINGS) ∧
    (∀ raw, file = FileState.content raw → parseJson raw = none →
      loadRuntimeSettings file parseJson = DEFAULT_SETTINGS) ∧
    (loadRuntimeSettings file parseJson ≠ DEFAULT_SETTINGS →
      ∃ raw v, file = FileState.content raw ∧ parseJson raw = some v ∧
        loadRuntimeSettings file parseJson = spreadIntoDefaults v) := by
  refine ⟨fun h => by subst h; rfl, fun h => by subst h; rfl,
    fun raw h hp => by subst h; simp [loadRuntimeSettings, hp], fun hne => ?_⟩
  cases file with
  | missing => exact absurd rfl hne
  | unreadable => exact absurd rfl hne
  | content raw =>
    cases hp : parseJson raw with
    | none => exact absurd (by simp [loadRuntimeSettings, hp]) hne
    | some v => exact ⟨raw, v, rfl, hp, by simp [loadRuntimeSettings, hp]⟩

/-- Witness for C9: corrupt (unparseable) JSON content yields the
defaults. -/
theorem claim9_settings_load_defaults_witness :
    loadRuntimeSettings (FileState.content "oops") (fun _ => none) = DEFAULT_SETTINGS :=
  (claim9_settings_load_defaults (FileState.content "oops") (fun _ => none)).2.2.1
    "oops" rfl rfl

end RuntimeSettings

end OrenchiBot

namespace OrenchiBot

namespace VoicePlaybackQueue

/-- The handle returned by one enqueue: its task events are the previous
chain's task events followed by this task's start and finish, and it
always fulfils (the final `.catch` swallows the task's rejection). -/
theorem enqueue_handle (st : QState) (k : String) (i : Nat) (o : Outcome) :
    taskEvents (enqueue st k i o).1.1 =
      taskEvents (st k).1 ++ [Ev.start i, Ev.finish i o.isNone] ∧
    (enqueue st k i o).1.2 = Except.ok () := by
  rcases hp : st k with ⟨tr, res⟩
  cases res with
  | ok u =>
    cases u
    cases o <;>
      simp [enqueue, hp, pcatch, pthen, runTask, taskEvents, isTaskEvent,
        List.filter_append]
  | error e =>
    cases o <;>
      simp [enqueue, hp, pcatch, pthen, runTask, taskEvents, isTaskEvent,
        List.filter_append]

/-- Effect of one enqueue on the stored chain map. -/
theorem enqueue_state (st : QState) (k : String) (i : Nat) (o : Outcome) :
    (enqueue st k i o).2 k =
      pfinallyEvents (enqueue st k i o).1 [Ev.cleanupCheck i] ∧
    ∀ K, K ≠ k → (enqueue st k i o).2 K = st K := by
  constructor
  · show Function.update st k _ k = _
    rw [Function.update_same]
    rfl
  · intro K hK
    show Function.update st k _ K = st K
    rw [Function.update_noteq hK]

/-- Task events of the stored chain after any sequence of enqueues: for
every key they are exactly the canonical per-key trace, one start/finish
pair per enqueued task for that key, in submission order. -/
theorem runEnqueues_chains (ops : List (String × Outcome)) :
    ∀ (st : QState) (i : Nat) (K : String),
      taskEvents ((runEnqueues st i ops).1 K).1 =
        taskEvents (st K).1 ++ specCanonicalTrace K i ops := by
  induction ops with
  | nil =>
    intro st i K
    simp [runEnqueues, specCanonicalTrace]
  | cons p rest ih =>
    obtain ⟨k, o⟩ := p
    intro st i K
    have hrun : (runEnqueues st i ((k, o) :: rest)).1 =
        (runEnqueues (enqueue st k i o).2 (i + 1) rest).1 := rfl
    rw [hrun, ih]
    simp only [specCanonicalTrace]
    by_cases hk : K = k
    · subst hk
      rw [(enqueue_state st K i o).1]
      have hfin : taskEvents (pfinallyEvents (enqueue st K i o).1 [Ev.cleanupCheck i]).1 =
          taskEvents (enqueue st K i o).1.1 := by
        simp [pfinallyEvents, taskEvents, List.filter_append, isTaskEvent]
      rw [hfin, (enqueue_handle st K i o).1, if_pos rfl]
      simp
    · rw [(enqueue_state st k i o).2 K hk,
        if_neg (fun h => hk (h.symm))]
      simp

/-- The handle returned to the `j`-th caller always fulfils, and its trace
covers exactly the canonical trace of its key up to and including its own
task — it settles at its own task's completion, not the whole chain's. -/
theorem runEnqueues_handles (ops : List (String × Outcome)) :
    ∀ (st : QState) (i j : Nat) (k : String) (h : PDen),
      (runEnqueues st i ops).2.get? j = some (k, h) →
      h.2 = Except.ok () ∧
      taskEvents h.1 = taskEvents (st k).1 ++ specCanonicalTrace k i (ops.take (j + 1)) := by
  induction ops with
  | nil =>
    intro st i j k h hget
    simp [runEnqueues] at hget
  | cons p rest ih =>
    obtain ⟨k0, o0⟩ := p
    intro st i j k h hget
    have hrun : (runEnqueues st i ((k0, o0) :: rest)).2 =
        (k0, (enqueue st k0 i o0).1) :: (runEnqueues (enqueue st k0 i o0).2 (i + 1) rest).2 :=
      rfl
    rw [hrun] at hget
    cases j with
    | zero =>
      simp only [List.get?_cons_zero, Option.some.injEq, Prod.mk.injEq] at hget
      obtain ⟨hk0, hh⟩ := hget
      refine ⟨?_, ?_⟩
      · rw [← hh]
        exact (enqueue_handle st k0 i o0).2
      · rw [← hh, ← hk0, (enqueue_handle st k0 i o0).1]
        simp [specCanonicalTrace]
    | succ j =>
      simp only [List.get?_cons_succ] at hget
      have hr := ih (enqueue st k0 i o0).2 (i + 1) j k h hget
      refine ⟨hr.1, ?_⟩
      rw [hr.2, List.take_succ_cons]
      simp only [specCanonicalTrace]
      by_cases hk : k = k0
      · subst hk
        rw [(enqueue_state st k i o0).1]
        have hfin : taskEvents (pfinallyEvents (enqueue st k i o0).1 [Ev.cleanupCheck i]).1 =
            taskEvents (enqueue st k i o0).1.1 := by
          simp [pfinallyEvents, taskEvents, List.filter_append, isTaskEvent]
        rw [hfin, (enqueue_handle st k i o0).1, if_pos rfl]
        simp
      · rw [(enqueue_state st k0 i o0).2 k hk,
          if_neg (fun heq => hk (heq.symm))]
        simp

/-- Below `i`, the canonical trace starting at `i` has no events. -/
theorem spec_count_lo (K : String) :
    ∀ (ops : List (String × Outcome)) (i t : Nat) (b : Bool), t < i →
      (specCanonicalTrace K i ops).count (Ev.start t) = 0 ∧
      (specCanonicalTrace K i ops).count (Ev.finish t b) = 0 := by
  intro ops
  induction ops with
  | nil =>
    intro i t b ht
    simp [specCanonicalTrace]
  | cons p rest ih =>
    obtain ⟨k, o⟩ := p
    intro i t b ht
    have hr := ih (i + 1) t b (by omega)
    have hne : i ≠ t := by omega
    by_cases hk : k = K <;>
      simp [specCanonicalTrace, hk, List.count_append, List.count_cons, hr.1, hr.2, hne]

/-- Each task enqueued for key `K` contributes exactly one start event and
one finish event to the canonical trace. -/
theorem spec_count (K : String) :
    ∀ (ops : List (String × Outcome)) (i j : Nat) (k : String) (o : Outcome),
      ops.get? j = some (k, o) → k = K →
      (specCanonicalTrace K i ops).count (Ev.start (i + j)) = 1 ∧
      (specCanonicalTrace K i ops).count (Ev.finish (i + j) o.isNone) = 1 := by
  intro ops
  induction ops with
  | nil =>
    intro i j k o hget hk
    simp at hget
  | cons p rest ih =>
    obtain ⟨k0, o0⟩ := p
    intro i j k o hget hk
    cases j with
    | zero =>
      simp only [List.get?_cons_zero, Option.some.injEq, Prod.mk.injEq] at hget
      obtain ⟨hk0, ho0⟩ := hget
      subst hk0
      subst ho0
      subst hk
      have hlo := spec_count_lo k0 rest (i + 1) i o0.isNone (by omega)
      simp only [specCanonicalTrace, if_pos rfl]
      simp [List.count_append, List.count_cons, hlo.1, hlo.2]
    | succ j =>
      simp only [List.get?_cons_succ] at hget
      have hr := ih (i + 1) j k o hget hk
      have harith : i + (j + 1) = (i + 1) + j := by omega
      rw [harith]
      have hne1 : i ≠ i + 1 + j := by omega
      by_cases hk0 : k0 = K <;>
        simp [specCanonicalTrace, hk0, List.count_append, List.count_cons,
          hr.1, hr.2, hne1]

end VoicePlaybackQueue

end OrenchiBot

namespace OrenchiBot

namespace VoicePlaybackQueue

/-- C1: for every destination key K and every finite sequence of enqueued
tasks (across any keys, with any outcomes), the task events of K's chain
are exactly the canonical trace: each task enqueued for K runs exactly
once, its start immediately followed by its finish, in submission order,
with each task starting only after the previous one for K finished and a
failing task never blocking later tasks (the equality holds for every
outcome assignment, failures included); each such task's start and finish
events occur exactly once in the chain trace. -/
theorem claim1_scheduler_fifo (ops : List (String × Outcome)) (K : String) :
    taskEvents ((runEnqueues initState 0 ops).1 K).1 = specCanonicalTrace K 0 ops ∧
    (∀ j k o, ops.get? j = some (k, o) → k = K →
      (((runEnqueues initState 0 ops).1 K).1).count (Ev.start j) = 1 ∧
      (((runEnqueues initState 0 ops).1 K).1).count (Ev.finish j o.isNone) = 1) := by
  have hchain : taskEvents ((runEnqueues initState 0 ops).1 K).1 =
      specCanonicalTrace K 0 ops := by
    have h := runEnqueues_chains ops initState 0 K
    simpa [initState, promiseResolve, taskEvents] using h
  refine ⟨hchain, fun j k o hget hk => ?_⟩
  have hcnt := spec_count K ops 0 j k o hget hk
  rw [Nat.zero_add] at hcnt
  constructor
  · have hc : (((runEnqueues initState 0 ops).1 K).1).count (Ev.start j) =
        (taskEvents (((runEnqueues initState 0 ops).1 K).1)).count (Ev.start j) :=
      (List.count_filter rfl).symm
    rw [hc, hchain]
    exact hcnt.1
  · have hc : (((runEnqueues initState 0 ops).1 K).1).count (Ev.finish j o.isNone) =
        (taskEvents (((runEnqueues initState 0 ops).1 K).1)).count (Ev.finish j o.isNone) :=
      (List.count_filter rfl).symm
    rw [hc, hchain]
    exact hcnt.2

/-- Witness for C1: three tasks, the first failing, over two keys. -/
theorem claim1_scheduler_fifo_witness :
    taskEvents ((runEnqueues initState 0 [("g", some 7), ("h", none), ("g", none)]).1 "g").1 =
      specCanonicalTrace "g" 0 [("g", some 7), ("h", none), ("g", none)] ∧
    (((runEnqueues initState 0 [("g", some 7), ("h", none), ("g", none)]).1 "g").1).count
      (Ev.start 0) = 1 ∧
    (((runEnqueues initState 0 [("g", some 7), ("h", none), ("g", none)]).1 "g").1).count
      (Ev.finish 0 false) = 1 :=
  ⟨(claim1_scheduler_fifo [("g", some 7), ("h", none), ("g", none)] "g").1,
   ((claim1_scheduler_fifo [("g", some 7), ("h", none), ("g", none)] "g").2
     0 "g" (some 7) rfl rfl).1,
   ((claim1_scheduler_fifo [("g", some 7), ("h", none), ("g", none)] "g").2
     0 "g" (some 7) rfl rfl).2⟩

/-- C2 as stated is false: for the single task enqueued for "g" that
rejects with error 7, the handle returned by enqueue fulfils (the final
`.catch` in the chain swallowed the rejection) instead of rejecting with
the task's own error. -/
theorem claim2_handle_counterexample :
    (runEnqueues initState 0 [("g", some 7)]).2.map (fun e => e.2.2) =
      [Except.ok ()] ∧
    (Except.ok () : Except ErrVal Unit) ≠ Except.error 7 := by
  constructor
  · rfl
  · simp

/-- C2 (amended): the handle returned by enqueue settles exactly when its
own task finishes — its trace carries the canonical trace of its key up to
and including its own task, never later tasks — and it always fulfils:
when the task succeeds it resolves, and when the task fails the failure is
logged and the handle still resolves (the trailing `.catch` swallows the
rejection), so it never rejects and never reflects earlier tasks'
outcomes. -/
theorem claim2_handle_settlement (ops : List (String × Outcome)) (j : Nat)
    (k : String) (h : PDen)
    (hget : (runEnqueues initState 0 ops).2.get? j = some (k, h)) :
    h.2 = Except.ok () ∧
    taskEvents h.1 = specCanonicalTrace k 0 (ops.take (j + 1)) := by
  have hr := runEnqueues_handles ops initState 0 j k h hget
  refine ⟨hr.1, ?_⟩
  rw [hr.2]
  simp [initState, promiseResolve, taskEvents]

/-- Witness for C2 (amended): the first of two tasks for "g" fails with
error 7; its handle fulfils and settles at its own finish. -/
theorem claim2_handle_settlement_witness :
    (([Ev.start 0, Ev.finish 0 false, Ev.logTaskError 0 7],
        (Except.ok () : Except ErrVal Unit)) : PDen).2 = Except.ok () ∧
    taskEvents ([Ev.start 0, Ev.finish 0 false, Ev.logTaskError 0 7] : List Ev) =
      specCanonicalTrace "g" 0 ([("g", some 7), ("g", none)].take (0 + 1)) :=
  claim2_handle_settlement [("g", some 7), ("g", none)] 0 "g"
    ([Ev.start 0, Ev.finish 0 false, Ev.logTaskError 0 7], Except.ok ()) rfl

end VoicePlaybackQueue

namespace VoicePlaybackQueueMap

theorem inv_initMapState : Inv initMapState := by
  refine ⟨fun k v h => ?_, fun q hq => ?_, fun k v h q hq => ?_⟩
  · simp [initMapState] at h
  · simp [initMapState] at hq
  · simp [initMapState] at h

theorem inv_alloc_aux (st : MapState) (h : Inv st) (k : String) (base : Nat)
    (hb : st.nextId ≤ base) :
    Inv ⟨base + 4, Function.update st.table k (some (base + 3)),
      st.pending ++ [(k, base + 2)]⟩ := by
  obtain ⟨h1, h2, h3⟩ := h
  refine ⟨?_, ?_, ?_⟩
  · intro k2 v hv
    have hv2 : Function.update st.table k (some (base + 3)) k2 = some v := hv
    show v < base + 4
    rcases eq_or_ne k2 k with rfl | hne
    · rw [Function.update_same] at hv2
      cases hv2
      omega
    · rw [Function.update_noteq hne] at hv2
      have := h1 k2 v hv2
      omega
  · intro q hq
    have hq2 : q ∈ st.pending ++ [(k, base + 2)] := hq
    show q.2 < base + 4
    rcases List.mem_append.mp hq2 with hq3 | hq3
    · have := h2 q hq3
      omega
    · simp only [List.mem_singleton] at hq3
      subst hq3
      show base + 2 < base + 4
      omega
  · intro k2 v hv q hq
    have hv2 : Function.update st.table k (some (base + 3)) k2 = some v := hv
    have hq2 : q ∈ st.pending ++ [(k, base + 2)] := hq
    rcases List.mem_append.mp hq2 with hq3 | hq3
    · rcases eq_or_ne k2 k with rfl | hne
      · rw [Function.update_same] at hv2
        cases hv2
        have := h2 q hq3
        omega
      · rw [Function.update_noteq hne] at hv2
        exact h3 k2 v hv2 q hq3
    · simp only [List.mem_singleton] at hq3
      subst hq3
      show v ≠ base + 2
      rcases eq_or_ne k2 k with rfl | hne
      · rw [Function.update_same] at hv2
        cases hv2
        omega
      · rw [Function.update_noteq hne] at hv2
        have := h1 k2 v hv2
        omega

theorem inv_enqueueAlloc (st : MapState) (h : Inv st) (k : String) :
    Inv (enqueueAlloc st k) := by
  cases htk : st.table k with
  | none =>
    simp only [enqueueAlloc, htk]
    exact inv_alloc_aux st h k (st.nextId + 1) (by omega)
  | some v0 =>
    simp only [enqueueAlloc, htk]
    exact inv_alloc_aux st h k st.nextId (by omega)

theorem mem_of_getElemOpt {α : Type} {l : List α} {n : Nat} {a : α}
    (h : l[n]? = some a) : a ∈ l := by
  have h2 : l.get? n = some a := by
    rw [List.get?_eq_getElem?]
    exact h
  exact List.get?_mem h2

/-- Under the invariant, firing any pending cleanup leaves the map
untouched: the id it compares against (`next`) is never the id stored in
the map (`next.finally(...)`), so the compare-and-delete guard is always
false and the delete never runs. -/
theorem runCleanup_table (st : MapState) (h : Inv st) (j : Nat) :
    (runCleanup st j).table = st.table := by
  obtain ⟨h1, h2, h3⟩ := h
  cases hq : st.pending[j]? with
  | none => simp [runCleanup, hq]
  | some p =>
    obtain ⟨k, pid⟩ := p
    have hmem : (k, pid) ∈ st.pending := mem_of_getElemOpt hq
    cases htk : st.table k with
    | none => simp [runCleanup, hq, htk]
    | some v =>
      have hne : v ≠ pid := h3 k v htk (k, pid) hmem
      simp [runCleanup, hq, htk, hne]

theorem runCleanup_nextId (st : MapState) (j : Nat) :
    (runCleanup st j).nextId = st.nextId := by
  cases hq : st.pending[j]? with
  | none => simp [runCleanup, hq]
  | some p =>
    obtain ⟨k, pid⟩ := p
    simp [runCleanup, hq]

theorem runCleanup_pending_subset (st : MapState) (j : Nat) :
    ∀ q ∈ (runCleanup st j).pending, q ∈ st.pending := by
  intro q hq
  cases hp : st.pending[j]? with
  | none =>
    simp [runCleanup, hp] at hq
    exact hq
  | some p =>
    obtain ⟨k, pid⟩ := p
    simp [runCleanup, hp] at hq
    exact List.mem_of_mem_eraseIdx hq

theorem inv_step (st : MapState) (h : Inv st) (s : MStep) : Inv (step st s) := by
  cases s with
  | enq k => exact inv_enqueueAlloc st h k
  | settle j =>
    simp only [step]
    refine ⟨?_, ?_, ?_⟩
    · intro k v hv
      rw [runCleanup_nextId]
      rw [runCleanup_table st h j] at hv
      exact h.1 k v hv
    · intro q hq
      rw [runCleanup_nextId]
      exact h.2.1 q (runCleanup_pending_subset st j q hq)
    · intro k v hv q hq
      rw [runCleanup_table st h j] at hv
      exact h.2.2 k v hv q (runCleanup_pending_subset st j q hq)

theorem inv_foldl (steps : List MStep) :
    ∀ st, Inv st → Inv (steps.foldl step st) := by
  induction steps with
  | nil => intro st h; exact h
  | cons s rest ih => intro st h; exact ih (step st s) (inv_step st h s)

theorem presence_foldl (steps : List MStep) :
    ∀ (st : MapState) (k : String), Inv st → st.table k ≠ none →
      (steps.foldl step st).table k ≠ none := by
  induction steps with
  | nil => intro st k h hp; exact hp
  | cons s rest ih =>
    intro st k h hp
    refine ih (step st s) k (inv_step st h s) ?_
    cases s with
    | enq k2 =>
      show (enqueueAlloc st k2).table k ≠ none
      simp only [enqueueAlloc]
      rcases eq_or_ne k k2 with rfl | hne
      · rw [Function.update_same]
        simp
      · rw [Function.update_noteq hne]
        exact hp
    | settle j =>
      show (runCleanup st j).table k ≠ none
      rw [runCleanup_table st h j]
      exact hp

/-- C3 is refuted by the code: the cleanup compares the current map entry
(which is `next.finally(...)`) against `next` — two distinct promises — so
under the reachable-state invariant the compare-and-delete never deletes
anything; consequently after any run containing an enqueue for key k, the
map still contains an entry for k no matter how many chains have drained;
concretely, one enqueue for "g" followed by its cleanup firing leaves the
entry (the stored promise id 4) in the map. -/
theorem claim3_cleanup_never_fires (pre post : List MStep) (k : String) :
    (∀ (st : MapState) (j : Nat), Inv st → (runCleanup st j).table = st.table) ∧
    (run (pre ++ MStep.enq k :: post)).table k ≠ none ∧
    (run [MStep.enq "g", MStep.settle 0]).table "g" = some 4 := by
  refine ⟨fun st j h => runCleanup_table st h j, ?_, ?_⟩
  · show ((pre ++ MStep.enq k :: post).foldl step initMapState).table k ≠ none
    rw [List.foldl_append, List.foldl_cons]
    have hinv1 : Inv (pre.foldl step initMapState) :=
      inv_foldl pre initMapState inv_initMapState
    refine presence_foldl post _ k (inv_step _ hinv1 _) ?_
    show (enqueueAlloc (pre.foldl step initMapState) k).table k ≠ none
    simp only [enqueueAlloc]
    rw [Function.update_same]
    simp
  · rfl

/-- Witness for C3's theorem: the invariant holds initially, the cleanup
is a no-op there, and the concrete run retains its entry. -/
theorem claim3_cleanup_never_fires_witness :
    Inv initMapState ∧
    (runCleanup initMapState 0).table = initMapState.table ∧
    (run ([] ++ MStep.enq "g" :: [MStep.settle 0])).table "g" ≠ none :=
  ⟨inv_initMapState,
   (claim3_cleanup_never_fires [] [MStep.settle 0] "g").1 initMapState 0 inv_initMapState,
   (claim3_cleanup_never_fires [] [MStep.settle 0] "g").2.1⟩

end VoicePlaybackQueueMap

end OrenchiBot
